import Mathlib

/-!
Verification development for the OCR field-extraction pipeline (src/main.py).

The pipeline has two stages.  Stage one (`process_image`) validates the
aspect ratio of an input image, resizes it to the canonical 1584x1224
size, crops four fixed regions, runs OCR on each crop and publishes the
normalized field map.  Stage two (`save_result`) base64-decodes and
JSON-parses the published payload and persists the utility map as an
indented JSON document.

Python strings are modelled as `List Char` (`PyStr`); the relevant
Python string primitives (`str.replace` on single characters,
`str.split` on a single-character separator, which keeps empty tokens)
are translated directly.  External collaborators (cloud storage, the
vision OCR service, the message transport) are modelled as parameters
and as an explicit list of side `Effect`s, so that "no write happened
before the failure" is a statement about the effect list.
-/

/-- Python strings, modelled as lists of characters. -/
abbrev PyStr := List Char

/-- Model of Python `text.replace(a, b)` for single characters `a`, `b`. -/
def pyReplace (a b : Char) (t : PyStr) : PyStr :=
  t.map (fun c => if c = a then b else c)

/-- Model of Python `text.replace(a, "")` for a single character `a`:
every occurrence of `a` is removed. -/
def pyRemoveChar (a : Char) (t : PyStr) : PyStr :=
  t.filter (fun c => c ≠ a)

/-- Model of Python `text.split(sep)` for a single-character separator:
splits on every occurrence of `sep` and keeps empty tokens, so the
result always has `(number of separators) + 1` elements. -/
def pySplit (sep : Char) : PyStr → List PyStr
  | [] => [[]]
  | c :: cs =>
    match pySplit sep cs with
    | [] => [[]]
    | t :: ts => if c = sep then [] :: t :: ts else (c :: t) :: ts

/-- `pySplit` never returns the empty list (Python `split` always
returns at least one token). -/
theorem pySplit_ne_nil (sep : Char) (l : PyStr) : pySplit sep l ≠ [] := by
  cases l with
  | nil => simp [pySplit]
  | cons c cs =>
    simp only [pySplit]
    cases h : pySplit sep cs with
    | nil => simp
    | cons t ts =>
      by_cases hc : c = sep <;> simp [hc]

/-- Splitting a list that ends in the separator appends one empty token. -/
theorem pySplit_append_sep (sep : Char) (l : PyStr) :
    pySplit sep (l ++ [sep]) = pySplit sep l ++ [[]] := by
  induction l with
  | nil => simp [pySplit]
  | cons c cs ih =>
    cases h : pySplit sep cs with
    | nil => exact absurd h (pySplit_ne_nil sep cs)
    | cons t ts =>
      rw [h] at ih
      by_cases hc : c = sep <;>
        simp [pySplit, ih, h, hc]

/-- Appending a final element fixes `getLastD`. -/
theorem getLastD_append_single {α : Type} (l : List α) (a d : α) :
    (l ++ [a]).getLastD d = a := by
  induction l with
  | nil => rfl
  | cons x xs ih =>
    cases xs with
    | nil => rfl
    | cons y ys => simpa using ih

/-- If the separator occurs in the list, the split has at least two tokens. -/
theorem pySplit_length_of_mem {sep : Char} {l : PyStr} (h : sep ∈ l) :
    1 < (pySplit sep l).length := by
  induction l with
  | nil => cases h
  | cons c cs ih =>
    simp only [pySplit]
    cases hs : pySplit sep cs with
    | nil => exact absurd hs (pySplit_ne_nil sep cs)
    | cons t ts =>
      by_cases hc : c = sep
      · simp [hs, hc]
      · have h2 : sep ∈ cs := by
          rcases List.mem_cons.mp h with h1 | h2
          · exact absurd h1.symm hc
          · exact h2
        have := ih h2
        rw [hs] at this
        simp only [hs]
        simpa [hc] using this

/-- Replacing `'\n'` by a space neither creates nor destroys periods. -/
theorem mem_dot_pyReplace_nl (t : PyStr) :
    '.' ∈ pyReplace '\n' ' ' t ↔ '.' ∈ t := by
  induction t with
  | nil => simp [pyReplace]
  | cons c cs ih =>
    by_cases hc : c = '\n'
    · subst hc
      simp only [pyReplace, List.map_cons, if_pos rfl, List.mem_cons] at *
      constructor
      · rintro (h | h)
        · cases h
        · exact Or.inr (ih.mp h)
      · rintro (h | h)
        · cases h
        · exact Or.inr (ih.mpr h)
    · simp only [pyReplace, List.map_cons, if_neg hc, List.mem_cons] at *
      constructor
      · rintro (h | h)
        · exact Or.inl h
        · exact Or.inr (ih.mp h)
      · rintro (h | h)
        · exact Or.inl h
        · exact Or.inr (ih.mpr h)

/-! ## Per-field normalization rules (from `detect_text`, src/main.py lines 154-172) -/

/-- The accepted final values for the `renew_size` field
(`accept_set = {"1/2", "3/4", "1"}` in the source). -/
def accept_set : List PyStr := ["1/2".data, "3/4".data, "1".data]

/-- First two steps of the `renew_size` normalization: strip `"`
characters (`text.replace("\"", "")`), then map the OCR misreads
`"162"` to `"1/2"` and `"364"` to `"3/4"` (the `if`/`elif` pair). -/
def renewSizeMapped (text : PyStr) : PyStr :=
  if pyRemoveChar '\"' text = "162".data then "1/2".data
  else if pyRemoveChar '\"' text = "364".data then "3/4".data
  else pyRemoveChar '\"' text

/-- Normalization of the `renew_size` field: strip `"` characters, map
the OCR misreads, and reset to the empty string unless the value is in
`accept_set` (`if text not in accept_set: text = ""`). -/
def renewSizeNorm (text : PyStr) : PyStr :=
  if renewSizeMapped text ∈ accept_set then renewSizeMapped text else []

/-- Normalization of the `nearest_crossed_street` field: replace
newlines by spaces; if the text contains a period, keep the token at
index 1 of the split on `'.'` (the source guards with
`text.find(".") >= 0 and len(text.split(".")) > 1`). -/
def streetNorm (text : PyStr) : PyStr :=
  let t := pyReplace '\n' ' ' text
  if '.' ∈ t ∧ 1 < (pySplit '.' t).length then (pySplit '.' t).getD 1 [] else t

/-- Normalization shared by the `house_number` and `renew_date` fields:
replace newlines by spaces and keep the last token of the split on a
single space (`text.split(" ")[-1]` in the source). -/
def lastTokenNorm (text : PyStr) : PyStr :=
  let t := pyReplace '\n' ' ' text
  (pySplit ' ' t).getLastD []

/-- Dispatch of the per-field normalization on the region name, exactly
as the `if`/`elif` chain in `detect_text`. -/
def normalizeField (cropped_file_name : String) (text : PyStr) : PyStr :=
  if cropped_file_name = "renew_size" then renewSizeNorm text
  else if cropped_file_name = "nearest_crossed_street" then streetNorm text
  else if cropped_file_name = "house_number" then lastTokenNorm text
  else if cropped_file_name = "renew_date" then lastTokenNorm text
  else text

/-- Claim C1 (counterexample): the source keeps `split(".")[1]`
verbatim, so the input `"Lot A. Elm Street"` normalizes to
`" Elm Street"` with the leading space kept, not to `"Elm Street"`
as the claim states. -/
theorem C1_street_cex :
    streetNorm "Lot A. Elm Street".data = " Elm Street".data ∧
    streetNorm "Lot A. Elm Street".data ≠ "Elm Street".data := by
  constructor
  · decide
  · decide

/-- Claim C1 (amended): for `nearest_crossed_street`, newlines are
first replaced by spaces; when the raw text contains a period the
value is the segment at index 1 of the split on `'.'`, kept verbatim
(so `"Lot A. Elm Street"` yields `" Elm Street"`, with the leading
space retained); a text with no period is returned unchanged except
for the newline-to-space substitution. -/
theorem C1_street_second_segment (t : PyStr) :
    ('.' ∈ t → streetNorm t = (pySplit '.' (pyReplace '\n' ' ' t)).getD 1 []) ∧
    ('.' ∉ t → streetNorm t = pyReplace '\n' ' ' t) ∧
    streetNorm "Lot A. Elm Street".data = " Elm Street".data := by
  refine ⟨?_, ?_, by decide⟩
  · intro h
    have hm : '.' ∈ pyReplace '\n' ' ' t := (mem_dot_pyReplace_nl t).mpr h
    have hl : 1 < (pySplit '.' (pyReplace '\n' ' ' t)).length :=
      pySplit_length_of_mem hm
    simp only [streetNorm]
    rw [if_pos ⟨hm, hl⟩]
  · intro h
    have hm : '.' ∉ pyReplace '\n' ' ' t := fun hc => h ((mem_dot_pyReplace_nl t).mp hc)
    simp only [streetNorm]
    rw [if_neg (fun hc => hm hc.1)]

/-- Claim C1 witness: the amended claim applied at the concrete inputs
`"a.b"` (contains a period) and `"ab"` (no period). -/
theorem C1_street_witness :
    streetNorm "a.b".data = (pySplit '.' (pyReplace '\n' ' ' "a.b".data)).getD 1 [] ∧
    streetNorm "ab".data = pyReplace '\n' ' ' "ab".data :=
  ⟨(C1_street_second_segment "a.b".data).1 (by decide),
   (C1_street_second_segment "ab".data).2.1 (by decide)⟩

/-- Claim C5: `renew_size` normalization strips quote characters, maps
the misreads `"162"` to `"1/2"` and `"364"` to `"3/4"`, and keeps the
result only if it is exactly one of `{"1/2", "3/4", "1"}`, resetting
it to the empty string otherwise; in particular `"162"` yields
`"1/2"`, `"364"` yields `"3/4"`, `"5/8"` yields `""`, `"1"` yields
`"1"`, and every output is in `{"1/2", "3/4", "1", ""}`. -/
theorem C5_renew_size :
    (∀ t : PyStr, renewSizeMapped t =
      (if pyRemoveChar '\"' t = "162".data then "1/2".data
       else if pyRemoveChar '\"' t = "364".data then "3/4".data
       else pyRemoveChar '\"' t)) ∧
    (∀ t : PyStr, renewSizeNorm t =
      (if renewSizeMapped t ∈ accept_set then renewSizeMapped t else [])) ∧
    renewSizeNorm "162".data = "1/2".data ∧
    renewSizeNorm "364".data = "3/4".data ∧
    renewSizeNorm "5/8".data = [] ∧
    renewSizeNorm "1".data = "1".data ∧
    (∀ t : PyStr, renewSizeNorm t = "1/2".data ∨ renewSizeNorm t = "3/4".data ∨
      renewSizeNorm t = "1".data ∨ renewSizeNorm t = []) := by
  refine ⟨fun t => rfl, fun t => rfl, by decide, by decide, by decide, by decide,
    fun t => ?_⟩
  by_cases hmem : renewSizeMapped t ∈ accept_set
  · have : renewSizeNorm t = renewSizeMapped t := by
      simp only [renewSizeNorm]
      exact if_pos hmem
    rw [this]
    have h3 : renewSizeMapped t = "1/2".data ∨ renewSizeMapped t = "3/4".data ∨
        renewSizeMapped t = "1".data := by
      simpa [accept_set] using hmem
    rcases h3 with h | h | h
    · exact Or.inl h
    · exact Or.inr (Or.inl h)
    · exact Or.inr (Or.inr (Or.inl h))
  · have : renewSizeNorm t = [] := by
      simp only [renewSizeNorm]
      exact if_neg hmem
    exact Or.inr (Or.inr (Or.inr this))

/-- Claim C6: the `house_number` and `renew_date` fields use the same
rule — replace newlines with spaces and keep the last space-delimited
token — and `"123 Main St 45"` yields `"45"`. -/
theorem C6_last_token :
    (∀ t : PyStr,
      normalizeField "house_number" t = (pySplit ' ' (pyReplace '\n' ' ' t)).getLastD [] ∧
      normalizeField "renew_date" t = normalizeField "house_number" t) ∧
    normalizeField "house_number" "123 Main St 45".data = "45".data := by
  refine ⟨fun t => ⟨?_, ?_⟩, by decide⟩
  · rfl
  · rfl

/-- Claim C10: for `house_number` and `renew_date`, a raw text ending
in a newline or a space normalizes to the empty string, because the
trailing separator becomes a trailing space and the last token of the
split on a single space is then empty. -/
theorem C10_trailing_separator (t : PyStr) (c : Char) (h : c = '\n' ∨ c = ' ') :
    normalizeField "house_number" (t ++ [c]) = [] ∧
    normalizeField "renew_date" (t ++ [c]) = [] := by
  have key : lastTokenNorm (t ++ [c]) = [] := by
    have hrep : pyReplace '\n' ' ' (t ++ [c]) = pyReplace '\n' ' ' t ++ [' '] := by
      simp only [pyReplace, List.map_append, List.map_cons, List.map_nil]
      rcases h with h | h <;> subst h <;> simp
    simp only [lastTokenNorm, hrep, pySplit_append_sep]
    exact getLastD_append_single _ _ _
  exact ⟨key, key⟩

/-- Claim C10 witness: the raw text `"45\n"` normalizes to the empty
string for both fields. -/
theorem C10_trailing_separator_witness :
    normalizeField "house_number" ("45".data ++ ['\n']) = [] ∧
    normalizeField "renew_date" ("45".data ++ ['\n']) = [] :=
  C10_trailing_separator "45".data '\n' (Or.inl rfl)

/-! ## Image model and the Geometry Normalizer (`resize_image`) -/

/-- A decoded raster image: dimensions plus pixel contents.  Pixel
values are abstracted as one natural number per coordinate. -/
structure Img where
  width : ℕ
  height : ℕ
  pix : ℕ → ℕ → ℕ

/-- The two interpolation modes the source passes to the external
resize collaborator (`cv2.INTER_AREA` and `cv2.INTER_LINEAR`). -/
inductive Interp where
  | area
  | linear
deriving DecidableEq

/-- The stage-one message published by `detect_text`: the normalized
field map, the raw pre-normalization texts (the value of the
`original_translation` key of the Python dict, modelled as a separate
field because it is a nested map rather than a string), and the input
file name. -/
structure Message where
  utility_map : List (String × PyStr)
  original_translation : List (String × PyStr)
  filename : String

/-- Observable side effects of the pipeline on its external
collaborators: image uploads, OCR requests, the stage-one publish and
the stage-two result write. -/
inductive Effect where
  | writeImage (bucket name : String) (img : Img)
  | ocrCall (bucket name : String)
  | publish (msg : Message)
  | writeResult (bucket name content : String)

/-- Round `n / d` to the nearest integer with ties to even, the
rounding Python's `round` uses (`d = 0` never arises for decoded
images, which have positive height). -/
def roundHalfEven (n d : ℕ) : ℕ :=
  if 2 * (n % d) < d then n / d
  else if d < 2 * (n % d) then n / d + 1
  else if n / d % 2 = 0 then n / d else n / d + 1

/-- `round(width / height, 3)` expressed in thousandths: the exact
rational `width / height` rounded half-to-even to three decimal
places, scaled by `1000`, so the source's comparison with the literal
`1.294` becomes a comparison with `1294`. -/
def ratio3 (w h : ℕ) : ℕ := roundHalfEven (1000 * w) h

/-- The message of the `ValueError` raised on a ratio mismatch (the
rounded ratio is reported in thousandths). -/
def ratioErrorMsg (img : Img) : String :=
  "Width to Height ratio is not equal to 1.294, width: " ++ toString img.width ++
    " height: " ++ toString img.height ++ " width/height: " ++
    toString (ratio3 img.width img.height)

/-- External `cv2.resize` collaborator: returns an image of exactly
the requested dimensions.  The resampled pixel values are abstracted
(a nearest-neighbour placeholder); no claim depends on them, only on
the dimensions and on which interpolation mode was requested. -/
def cv2Resize (img : Img) (w h : ℕ) (i : Interp) : Img :=
  ⟨w, h, fun r c =>
    match i with
    | Interp.area => img.pix (r * img.height / h) (c * img.width / w)
    | Interp.linear => img.pix (r * img.height / h) (c * img.width / w)⟩

/-- The branch structure of `resize_image` after the ratio gate:
downscale with area interpolation when both dimensions exceed
1584x1224, upscale with linear interpolation when both are smaller,
otherwise leave the image untouched.  Returns the image together with
the interpolation mode used, if any. -/
def resizeCore (img : Img) : Img × Option Interp :=
  if 1584 < img.width ∧ 1224 < img.height then
    (cv2Resize img 1584 1224 Interp.area, some Interp.area)
  else if img.width < 1584 ∧ img.height < 1224 then
    (cv2Resize img 1584 1224 Interp.linear, some Interp.linear)
  else (img, none)

/-- Result of `resize_image`: the canonical image, the interpolation
mode used, and the side effects performed (the overwrite of the
original stored object). -/
structure ResizeOut where
  image : Img
  interpUsed : Option Interp
  effects : List Effect

/-- Model of `resize_image` (src/main.py lines 67-96): check the
rounded aspect ratio against 1.294, raise on mismatch, otherwise
resize according to `resizeCore` and overwrite the source object. -/
def resize_image (bucket file_name : String) (img : Img) : Except String ResizeOut :=
  if ratio3 img.width img.height ≠ 1294 then
    Except.error (ratioErrorMsg img)
  else
    Except.ok ⟨(resizeCore img).1, (resizeCore img).2,
      [Effect.writeImage bucket file_name (resizeCore img).1]⟩

/-! ## Region Cropper (`get_cropped_sections`) -/

/-- The four crop rectangles of the source, in its `(x, y, h, w)`
order. -/
def cropped_dims : List (ℕ × ℕ × ℕ × ℕ) :=
  [(171, 405, 57, 111), (355, 125, 52, 351), (1050, 200, 125, 200), (111, 504, 43, 225)]

/-- The four region names, in crop order. -/
def cropped_file_names : List String :=
  ["renew_size", "nearest_crossed_street", "house_number", "renew_date"]

/-- NumPy slicing `image[y:y+h, x:x+w]`: out-of-range bounds are
silently clamped to the image, never an error. -/
def npCrop (img : Img) (y h x w : ℕ) : Img :=
  ⟨min (x + w) img.width - min x img.width,
   min (y + h) img.height - min y img.height,
   fun r c => img.pix (y + r) (x + c)⟩

/-- Model of `get_cropped_sections` (src/main.py lines 98-125): for
each region, slice `image[y:y+h, x:x+w]` and upload the crop as
`"{name}_{file_name}"` to the processed bucket; return the bucket and
the region names. -/
def get_cropped_sections (dest_bucket_name : String) (img : Img) (file_name : String) :
    List Effect × String × List String :=
  ((List.range cropped_dims.length).map (fun index =>
      Effect.writeImage dest_bucket_name
        (cropped_file_names.getD index "" ++ "_" ++ file_name)
        (npCrop img
          (cropped_dims.getD index (0, 0, 0, 0)).2.1
          (cropped_dims.getD index (0, 0, 0, 0)).2.2.1
          (cropped_dims.getD index (0, 0, 0, 0)).1
          (cropped_dims.getD index (0, 0, 0, 0)).2.2.2)),
   dest_bucket_name, cropped_file_names)

/-! ## Field Extractor (`detect_text`) and the stage-one coordinator -/

/-- Model of `detect_text` (src/main.py lines 128-187): for each
region name, request OCR on the staged crop (the collaborator is the
function `ocr` from region name to the optional raw annotation text);
an absent annotation yields the empty string and no
`original_translation` entry; a present annotation is recorded raw
and then normalized per field; finally the assembled message is
published. -/
def detect_text (bucket : String) (crNames : List String) (file_name : String)
    (ocr : String → Option PyStr) : List Effect × Message :=
  let msg : Message :=
    ⟨crNames.map (fun n => (n, match ocr n with
        | some t => normalizeField n t
        | none => ([] : PyStr))),
     crNames.filterMap (fun n => (ocr n).map (fun t => (n, t))),
     file_name⟩
  (crNames.map (fun n => Effect.ocrCall bucket (n ++ "_" ++ file_name)) ++
     [Effect.publish msg], msg)

/-- The event type stage one expects. -/
def expectedTypeStageOne : String := "google.cloud.storage.object.v1.finalized"

/-- Model of `process_image` (src/main.py lines 40-65): check the
event type, then resize, crop and extract; the effect list collects
every externally visible action in order. -/
def process_image (received_type bucket dest_bucket file_name : String) (img : Img)
    (ocr : String → Option PyStr) : List Effect × Except String Unit :=
  if received_type ≠ expectedTypeStageOne then
    ([], Except.error ("Expected " ++ expectedTypeStageOne ++ " but received " ++
      received_type))
  else
    match resize_image bucket file_name img with
    | Except.error e => ([], Except.error e)
    | Except.ok out =>
      let cropRes := get_cropped_sections dest_bucket out.image file_name
      let dt := detect_text cropRes.2.1 cropRes.2.2 file_name ocr
      (out.effects ++ cropRes.1 ++ dt.1, Except.ok ())

/-- A concrete image of the given dimensions with constant pixels,
used by witnesses. -/
def imgOf (w h : ℕ) : Img := ⟨w, h, fun _ _ => 0⟩

/-- Claim C3: when the rounded aspect ratio differs from 1.294 (exact
equality on the rounded value, in thousandths), `resize_image` fails
and the whole stage-one pipeline produces no side effect at all — no
image write, no crop upload, no OCR call; when the rounded ratio is
exactly 1.294, the gate passes. -/
theorem C3_geometry_gate (bucket dest_bucket file_name : String) (img : Img)
    (ocr : String → Option PyStr) :
    (ratio3 img.width img.height ≠ 1294 →
      resize_image bucket file_name img = Except.error (ratioErrorMsg img) ∧
      process_image expectedTypeStageOne bucket dest_bucket file_name img ocr =
        ([], Except.error (ratioErrorMsg img))) ∧
    (ratio3 img.width img.height = 1294 →
      ∃ out, resize_image bucket file_name img = Except.ok out) := by
  constructor
  · intro h
    have hres : resize_image bucket file_name img = Except.error (ratioErrorMsg img) := by
      simp only [resize_image]
      exact if_pos h
    refine ⟨hres, ?_⟩
    simp only [process_image]
    rw [if_neg (fun hc => hc rfl), hres]
  · intro h
    exact ⟨⟨(resizeCore img).1, (resizeCore img).2,
      [Effect.writeImage bucket file_name (resizeCore img).1]⟩, by
        simp only [resize_image]
        exact if_neg (fun hc => hc h)⟩

/-- Claim C3 witness: a 100x100 image (rounded ratio 1.000) fails with
no side effects, and a 1584x1224 image (rounded ratio exactly 1.294)
passes the gate. -/
theorem C3_geometry_gate_witness :
    (resize_image "b" "f" (imgOf 100 100) = Except.error (ratioErrorMsg (imgOf 100 100)) ∧
     process_image expectedTypeStageOne "b" "db" "f" (imgOf 100 100) (fun _ => none) =
       ([], Except.error (ratioErrorMsg (imgOf 100 100)))) ∧
    (∃ out, resize_image "b" "f" (imgOf 1584 1224) = Except.ok out) :=
  ⟨(C3_geometry_gate "b" "db" "f" (imgOf 100 100) (fun _ => none)).1 (by decide),
   (C3_geometry_gate "b" "db" "f" (imgOf 1584 1224) (fun _ => none)).2 (by decide)⟩

/-- Claim C4: after the ratio gate, an image strictly larger than
1584x1224 in both dimensions is resized to exactly 1584x1224 with
area interpolation; one strictly smaller in both dimensions is
resized to exactly 1584x1224 with linear interpolation; one that
straddles the target (one dimension larger, the other smaller) is
left unresized; and an image already exactly 1584x1224 is returned
pixel-for-pixel unchanged.  When the ratio gate passes, this is
exactly what `resize_image` returns and overwrites the source object
with. -/
theorem C4_resize_branches (bucket file_name : String) (img : Img) :
    (1584 < img.width ∧ 1224 < img.height →
      resizeCore img = (cv2Resize img 1584 1224 Interp.area, some Interp.area) ∧
      (resizeCore img).1.width = 1584 ∧ (resizeCore img).1.height = 1224) ∧
    (img.width < 1584 ∧ img.height < 1224 →
      resizeCore img = (cv2Resize img 1584 1224 Interp.linear, some Interp.linear) ∧
      (resizeCore img).1.width = 1584 ∧ (resizeCore img).1.height = 1224) ∧
    ((1584 < img.width ∧ img.height < 1224) ∨ (img.width < 1584 ∧ 1224 < img.height) →
      resizeCore img = (img, none)) ∧
    (img.width = 1584 ∧ img.height = 1224 → resizeCore img = (img, none)) ∧
    (ratio3 img.width img.height = 1294 →
      resize_image bucket file_name img =
        Except.ok ⟨(resizeCore img).1, (resizeCore img).2,
          [Effect.writeImage bucket file_name (resizeCore img).1]⟩) := by
  refine ⟨?_, ?_, ?_, ?_, ?_⟩
  · intro h
    have e : resizeCore img = (cv2Resize img 1584 1224 Interp.area, some Interp.area) := by
      simp only [resizeCore]
      exact if_pos h
    rw [e]
    exact ⟨rfl, rfl, rfl⟩
  · intro h
    have h1 : ¬(1584 < img.width ∧ 1224 < img.height) := by omega
    have e : resizeCore img = (cv2Resize img 1584 1224 Interp.linear, some Interp.linear) := by
      simp only [resizeCore]
      rw [if_neg h1]
      exact if_pos h
    rw [e]
    exact ⟨rfl, rfl, rfl⟩
  · intro h
    have h1 : ¬(1584 < img.width ∧ 1224 < img.height) := by omega
    have h2 : ¬(img.width < 1584 ∧ img.height < 1224) := by omega
    simp only [resizeCore]
    rw [if_neg h1, if_neg h2]
  · intro h
    have h1 : ¬(1584 < img.width ∧ 1224 < img.height) := by omega
    have h2 : ¬(img.width < 1584 ∧ img.height < 1224) := by omega
    simp only [resizeCore]
    rw [if_neg h1, if_neg h2]
  · intro h
    simp only [resize_image]
    exact if_neg (fun hc => hc h)

/-- Claim C4 witness: the four branches at concrete images — 3168x2448
(downscale, area), 792x612 (upscale, linear), 2000x1000 (straddle,
untouched), 1584x1224 (already canonical, returned unchanged, and
accepted by the whole of `resize_image`). -/
theorem C4_resize_branches_witness :
    (resizeCore (imgOf 3168 2448)).2 = some Interp.area ∧
    (resizeCore (imgOf 3168 2448)).1.width = 1584 ∧
    (resizeCore (imgOf 3168 2448)).1.height = 1224 ∧
    (resizeCore (imgOf 792 612)).2 = some Interp.linear ∧
    (resizeCore (imgOf 792 612)).1.width = 1584 ∧
    resizeCore (imgOf 2000 1000) = (imgOf 2000 1000, none) ∧
    resizeCore (imgOf 1584 1224) = (imgOf 1584 1224, none) ∧
    resize_image "b" "f" (imgOf 1584 1224) =
      Except.ok ⟨(resizeCore (imgOf 1584 1224)).1, (resizeCore (imgOf 1584 1224)).2,
        [Effect.writeImage "b" "f" (resizeCore (imgOf 1584 1224)).1]⟩ := by
  have hbig := (C4_resize_branches "b" "f" (imgOf 3168 2448)).1 ⟨by decide, by decide⟩
  have hsmall := (C4_resize_branches "b" "f" (imgOf 792 612)).2.1 ⟨by decide, by decide⟩
  have hstraddle := (C4_resize_branches "b" "f" (imgOf 2000 1000)).2.2.1
    (Or.inl ⟨by decide, by decide⟩)
  have hexact := (C4_resize_branches "b" "f" (imgOf 1584 1224)).2.2.2.1 ⟨rfl, rfl⟩
  have hok := (C4_resize_branches "b" "f" (imgOf 1584 1224)).2.2.2.2 (by decide)
  exact ⟨by rw [hbig.1], hbig.2.1, hbig.2.2, by rw [hsmall.1], hsmall.2.1,
    hstraddle, hexact, hok⟩

/-- Claim C9: each of the four regions is cropped by direct array
slicing `[y:y+height, x:x+width]` and uploaded in order, and whenever
the canonical image is at least 1584x1224 (large enough to contain
every rectangle) each crop has exactly the declared width and
height. -/
theorem C9_crop_dimensions (dest_bucket file_name : String) (img : Img)
    (hW : 1584 ≤ img.width) (hH : 1224 ≤ img.height) :
    (get_cropped_sections dest_bucket img file_name).1 =
      [Effect.writeImage dest_bucket ("renew_size" ++ "_" ++ file_name)
         (npCrop img 405 57 171 111),
       Effect.writeImage dest_bucket ("nearest_crossed_street" ++ "_" ++ file_name)
         (npCrop img 125 52 355 351),
       Effect.writeImage dest_bucket ("house_number" ++ "_" ++ file_name)
         (npCrop img 200 125 1050 200),
       Effect.writeImage dest_bucket ("renew_date" ++ "_" ++ file_name)
         (npCrop img 504 43 111 225)] ∧
    ((npCrop img 405 57 171 111).width = 111 ∧ (npCrop img 405 57 171 111).height = 57) ∧
    ((npCrop img 125 52 355 351).width = 351 ∧ (npCrop img 125 52 355 351).height = 52) ∧
    ((npCrop img 200 125 1050 200).width = 200 ∧ (npCrop img 200 125 1050 200).height = 125) ∧
    ((npCrop img 504 43 111 225).width = 225 ∧ (npCrop img 504 43 111 225).height = 43) := by
  refine ⟨rfl, ?_, ?_, ?_, ?_⟩ <;>
    exact ⟨by simp only [npCrop]; omega, by simp only [npCrop]; omega⟩

/-- Claim C9 witness: crop dimensions at the concrete canonical
1584x1224 image. -/
theorem C9_crop_dimensions_witness :
    ((npCrop (imgOf 1584 1224) 405 57 171 111).width = 111 ∧
      (npCrop (imgOf 1584 1224) 405 57 171 111).height = 57) ∧
    ((npCrop (imgOf 1584 1224) 125 52 355 351).width = 351 ∧
      (npCrop (imgOf 1584 1224) 125 52 355 351).height = 52) ∧
    ((npCrop (imgOf 1584 1224) 200 125 1050 200).width = 200 ∧
      (npCrop (imgOf 1584 1224) 200 125 1050 200).height = 125) ∧
    ((npCrop (imgOf 1584 1224) 504 43 111 225).width = 225 ∧
      (npCrop (imgOf 1584 1224) 504 43 111 225).height = 43) := by
  have h := C9_crop_dimensions "db" "f" (imgOf 1584 1224) (by decide) (by decide)
  exact ⟨h.2.1, h.2.2.1, h.2.2.2.1, h.2.2.2.2⟩

/-! ## Claim C7: the shape of the assembled utility map -/

/-- Looking up a key in an association list built by pairing each name
with a computed value returns that computed value. -/
theorem lookup_map_self (g : String → PyStr) :
    ∀ (l : List String) (n : String), n ∈ l →
      (l.map (fun m => (m, g m))).lookup n = some (g n) := by
  intro l
  induction l with
  | nil => intro n h; cases h
  | cons m ms ih =>
    intro n h
    by_cases hn : n = m
    · subst hn
      simp [List.lookup]
    · have hmem : n ∈ ms := by
        rcases List.mem_cons.mp h with h1 | h2
        · exact absurd h1 hn
        · exact h2
      have hb : (n == m) = false := beq_eq_false_iff_ne.mpr hn
      simpa [List.lookup, hb] using ih n hmem

/-- If OCR returned nothing for `n`, the raw-text association list has
no entry for `n` at all. -/
theorem lookup_filterMap_none (ocr : String → Option PyStr) (n : String)
    (h : ocr n = none) :
    ∀ l : List String,
      (l.filterMap (fun m => (ocr m).map (fun t => (m, t)))).lookup n = none := by
  intro l
  induction l with
  | nil => rfl
  | cons m ms ih =>
    cases hm : ocr m with
    | none => simpa [List.filterMap_cons, hm] using ih
    | some t =>
      have hn : ¬n = m := fun he => by rw [he, hm] at h; cases h
      have hb : (n == m) = false := beq_eq_false_iff_ne.mpr hn
      simpa [List.filterMap_cons, hm, List.lookup, hb] using ih

/-- If OCR returned `t` for `n` and `n` is among the processed names,
the raw-text association list maps `n` to `t`. -/
theorem lookup_filterMap_some (ocr : String → Option PyStr) (n : String) (t : PyStr)
    (h : ocr n = some t) :
    ∀ l : List String, n ∈ l →
      (l.filterMap (fun m => (ocr m).map (fun t => (m, t)))).lookup n = some t := by
  intro l
  induction l with
  | nil => intro hmem; cases hmem
  | cons m ms ih =>
    intro hmem
    by_cases hn : n = m
    · subst hn
      simp [List.filterMap_cons, h, List.lookup]
    · have hmem2 : n ∈ ms := by
        rcases List.mem_cons.mp hmem with h1 | h2
        · exact absurd h1 hn
        · exact h2
      cases hm : ocr m with
      | none => simpa [List.filterMap_cons, hm] using ih hmem2
      | some u =>
        have hb : (n == m) = false := beq_eq_false_iff_ne.mpr hn
        simpa [List.filterMap_cons, hm, List.lookup, hb] using ih hmem2

/-- The keys of the raw-text association list are exactly the names
for which OCR returned an annotation text. -/
theorem keys_filterMap (ocr : String → Option PyStr) :
    ∀ l : List String,
      (l.filterMap (fun m => (ocr m).map (fun t => (m, t)))).map Prod.fst =
        l.filter (fun m => (ocr m).isSome) := by
  intro l
  induction l with
  | nil => rfl
  | cons m ms ih =>
    cases hm : ocr m <;> simp [List.filterMap_cons, List.filter_cons, hm, ih]

/-- Claim C7: the assembled message's field map has exactly the four
region names as keys (in order), its raw-text component has exactly
the names for which OCR returned an annotation text, a field with no
OCR result gets the empty string (no error) and no raw-text entry,
and a field with an OCR result has its raw pre-normalization text
recorded. -/
theorem C7_utility_map_invariant (bucket file_name : String)
    (ocr : String → Option PyStr) :
    ((detect_text bucket cropped_file_names file_name ocr).2.utility_map.map Prod.fst =
      cropped_file_names) ∧
    ((detect_text bucket cropped_file_names file_name ocr).2.original_translation.map
        Prod.fst = cropped_file_names.filter (fun n => (ocr n).isSome)) ∧
    (∀ n, n ∈ cropped_file_names → ocr n = none →
      (detect_text bucket cropped_file_names file_name ocr).2.utility_map.lookup n =
        some ([] : PyStr) ∧
      (detect_text bucket cropped_file_names file_name ocr).2.original_translation.lookup
        n = none) ∧
    (∀ n t, n ∈ cropped_file_names → ocr n = some t →
      (detect_text bucket cropped_file_names file_name ocr).2.original_translation.lookup
        n = some t) := by
  refine ⟨?_, ?_, ?_, ?_⟩
  · simp [detect_text, List.map_map, Function.comp_def]
  · simpa [detect_text] using keys_filterMap ocr cropped_file_names
  · intro n hmem hnone
    constructor
    · have := lookup_map_self
        (fun m => match ocr m with
          | some t => normalizeField m t
          | none => ([] : PyStr)) cropped_file_names n hmem
      simpa [detect_text, hnone] using this
    · simpa [detect_text] using lookup_filterMap_none ocr n hnone cropped_file_names
  · intro n t hmem hsome
    simpa [detect_text] using lookup_filterMap_some ocr n t hsome cropped_file_names hmem

/-- A concrete OCR collaborator used by the claim C7 witness: one
region has an annotation, the others have none. -/
def ocrW : String → Option PyStr :=
  fun n => if n = "renew_size" then some "162".data else none

/-- Claim C7 witness: with `ocrW`, the field with no annotation maps
to the empty string and has no raw-text entry, while the field with
an annotation has its raw text recorded. -/
theorem C7_utility_map_invariant_witness :
    ((detect_text "b" cropped_file_names "f.jpg" ocrW).2.utility_map.lookup
      "house_number" = some ([] : PyStr)) ∧
    ((detect_text "b" cropped_file_names "f.jpg" ocrW).2.original_translation.lookup
      "house_number" = none) ∧
    ((detect_text "b" cropped_file_names "f.jpg" ocrW).2.original_translation.lookup
      "renew_size" = some "162".data) := by
  have h := C7_utility_map_invariant "b" "f.jpg" ocrW
  exact ⟨(h.2.2.1 "house_number" (by decide) (by decide)).1,
    (h.2.2.1 "house_number" (by decide) (by decide)).2,
    h.2.2.2 "renew_size" "162".data (by decide) (by decide)⟩

/-! ## Stage two: payload decoding and persistence (`save_result`) -/

/-- JSON values.  This covers the fragment the pipeline exchanges (the
published payload maps strings to strings and to one nested string
map); numeric literals are modelled as integers, since no payload the
pipeline produces carries fractional or exponent parts. -/
inductive Json where
  | null
  | bool (b : Bool)
  | num (n : ℤ)
  | str (s : String)
  | arr (elems : List Json)
  | obj (entries : List (String × Json))

/-- The opening curly bracket character. -/
def lbrace : Char := Char.ofNat 123

/-- The closing curly bracket character. -/
def rbrace : Char := Char.ofNat 125

/-- Index of a character in the standard base64 alphabet. -/
def b64Index (c : Char) : Option ℕ :=
  if 'A' ≤ c ∧ c ≤ 'Z' then some (c.toNat - 65)
  else if 'a' ≤ c ∧ c ≤ 'z' then some (c.toNat - 97 + 26)
  else if '0' ≤ c ∧ c ≤ '9' then some (c.toNat - 48 + 52)
  else if c = '+' then some 62
  else if c = '/' then some 63
  else none

/-- Decode a run of base64 sextet values into bytes: full 4-sextet
groups give 3 bytes, a final group of 2 or 3 sextets gives 1 or 2
bytes, and a final group of 1 sextet is malformed. -/
def b64DecodeData : List ℕ → Except String (List ℕ)
  | [] => Except.ok []
  | [_] => Except.error "Invalid base64-encoded string"
  | [a, b] => Except.ok [4 * a + b / 16]
  | [a, b, c] => Except.ok [4 * a + b / 16, 16 * (b % 16) + c / 4]
  | a :: b :: c :: d :: rest =>
    match b64DecodeData rest with
    | Except.ok tail =>
      Except.ok ((4 * a + b / 16) :: (16 * (b % 16) + c / 4) :: (64 * (c % 4) + d) :: tail)
    | Except.error e => Except.error e

/-- Model of `base64.b64decode` with default validation: characters
outside the alphabet are discarded first, the remaining length must
be a multiple of four (otherwise the padding error is raised), and
the data characters before the padding are decoded. -/
def pyB64Decode (s : String) : Except String (List ℕ) :=
  let cs := s.data.filter (fun c => (b64Index c).isSome || c == '=')
  if cs.length % 4 ≠ 0 then Except.error "Incorrect padding"
  else b64DecodeData ((cs.takeWhile (fun c => c != '=')).filterMap b64Index)

/-- The UTF-8 decoding `json.loads` applies to a bytes payload,
restricted to ASCII: every payload the pipeline itself publishes is
ASCII because `json.dumps` escapes everything else, so the non-ASCII
case (reported as an error here) is outside every claim. -/
def bytesToText (bs : List ℕ) : Except String (List Char) :=
  if bs.all (fun b => decide (b < 128)) then Except.ok (bs.map Char.ofNat)
  else Except.error "non-ASCII byte in payload"

/-- JSON insignificant whitespace. -/
def jsonWs (c : Char) : Bool :=
  c == ' ' || c == '\t' || c == '\n' || c == '\r'

/-- Skip insignificant whitespace. -/
def skipWs (l : List Char) : List Char := l.dropWhile jsonWs

/-- Value of one hexadecimal digit. -/
def hexVal (c : Char) : Option ℕ :=
  if '0' ≤ c ∧ c ≤ '9' then some (c.toNat - 48)
  else if 'a' ≤ c ∧ c ≤ 'f' then some (c.toNat - 97 + 10)
  else if 'A' ≤ c ∧ c ≤ 'F' then some (c.toNat - 65 + 10)
  else none

/-- Resolve a single-character JSON string escape. -/
def unescapeChar (e : Char) : Except String Char :=
  if e = '"' then Except.ok '"'
  else if e = '\\' then Except.ok '\\'
  else if e = '/' then Except.ok '/'
  else if e = 'n' then Except.ok '\n'
  else if e = 't' then Except.ok '\t'
  else if e = 'r' then Except.ok '\r'
  else if e = 'b' then Except.ok (Char.ofNat 8)
  else if e = 'f' then Except.ok (Char.ofNat 12)
  else Except.error "Invalid escape"

/-- Parse the body of a JSON string after the opening quote; returns
the content and the remaining input after the closing quote
(surrogate pairing of consecutive unicode escapes is not modelled: no
payload of the pipeline contains astral characters). -/
def parseStringBody : List Char → Except String (List Char × List Char)
  | [] => Except.error "Unterminated string"
  | '\\' :: e :: rest =>
    if e = 'u' then
      match rest with
      | h1 :: h2 :: h3 :: h4 :: rest2 =>
        match hexVal h1, hexVal h2, hexVal h3, hexVal h4 with
        | some a, some b, some c, some d =>
          match parseStringBody rest2 with
          | Except.ok (s, r) =>
            Except.ok (Char.ofNat (4096 * a + 256 * b + 16 * c + d) :: s, r)
          | Except.error e2 => Except.error e2
        | _, _, _, _ => Except.error "Invalid unicode escape"
      | _ => Except.error "Invalid unicode escape"
    else
      match unescapeChar e with
      | Except.ok c =>
        match parseStringBody rest with
        | Except.ok (s, r) => Except.ok (c :: s, r)
        | Except.error e2 => Except.error e2
      | Except.error e2 => Except.error e2
  | c :: rest =>
    if c = '"' then Except.ok ([], rest)
    else
      match parseStringBody rest with
      | Except.ok (s, r) => Except.ok (c :: s, r)
      | Except.error e2 => Except.error e2

/-- Parse a run of decimal digits. -/
def digitsToNat (l : List Char) : ℕ :=
  l.foldl (fun acc c => 10 * acc + (c.toNat - 48)) 0

/-- Parse an unsigned JSON integer; fractional and exponent parts are
outside the modelled fragment and reported as errors. -/
def parseNatNum (l : List Char) : Except String (ℕ × List Char) :=
  let ds := l.takeWhile Char.isDigit
  let rest := l.dropWhile Char.isDigit
  if ds.isEmpty then Except.error "Expecting value"
  else
    match rest with
    | c :: _ =>
      if c = '.' ∨ c = 'e' ∨ c = 'E' then
        Except.error "float literal outside the modelled JSON fragment"
      else Except.ok (digitsToNat ds, rest)
    | [] => Except.ok (digitsToNat ds, rest)

/-- Parse a JSON integer with optional sign. -/
def parseIntNum (l : List Char) : Except String (ℤ × List Char) :=
  match l with
  | '-' :: rest =>
    match parseNatNum rest with
    | Except.ok (n, r) => Except.ok (-(n : ℤ), r)
    | Except.error e => Except.error e
  | _ =>
    match parseNatNum l with
    | Except.ok (n, r) => Except.ok ((n : ℤ), r)
    | Except.error e => Except.error e

/-- Match a literal continuation such as `rue`, `alse`, `ull`. -/
def expectLit (lit : List Char) (l : List Char) : Option (List Char) :=
  if lit.isPrefixOf l then some (l.drop lit.length) else none

mutual

/-- Recursive-descent JSON value parser; the fuel argument dominates
the nesting depth and is instantiated with the input length. -/
def parseValue : ℕ → List Char → Except String (Json × List Char)
  | 0, _ => Except.error "payload too deeply nested"
  | fuel + 1, l =>
    match skipWs l with
    | [] => Except.error "Expecting value"
    | c :: rest =>
      if c = '"' then
        match parseStringBody rest with
        | Except.ok (s, r) => Except.ok (Json.str (String.mk s), r)
        | Except.error e => Except.error e
      else if c = lbrace then
        match skipWs rest with
        | c2 :: r2 =>
          if c2 = rbrace then Except.ok (Json.obj [], r2)
          else
            match parseObjItems fuel (c2 :: r2) with
            | Except.ok (es, r3) => Except.ok (Json.obj es, r3)
            | Except.error e => Except.error e
        | [] => Except.error "Unterminated object"
      else if c = '[' then
        match skipWs rest with
        | c2 :: r2 =>
          if c2 = ']' then Except.ok (Json.arr [], r2)
          else
            match parseArrItems fuel (c2 :: r2) with
            | Except.ok (vs, r3) => Except.ok (Json.arr vs, r3)
            | Except.error e => Except.error e
        | [] => Except.error "Unterminated array"
      else if c = 't' then
        match expectLit "rue".data rest with
        | some r => Except.ok (Json.bool true, r)
        | none => Except.error "Expecting value"
      else if c = 'f' then
        match expectLit "alse".data rest with
        | some r => Except.ok (Json.bool false, r)
        | none => Except.error "Expecting value"
      else if c = 'n' then
        match expectLit "ull".data rest with
        | some r => Except.ok (Json.null, r)
        | none => Except.error "Expecting value"
      else
        match parseIntNum (c :: rest) with
        | Except.ok (n, r) => Except.ok (Json.num n, r)
        | Except.error e => Except.error e

/-- Parse the comma-separated items of a non-empty array, up to and
including the closing bracket. -/
def parseArrItems : ℕ → List Char → Except String (List Json × List Char)
  | 0, _ => Except.error "payload too deeply nested"
  | fuel + 1, l =>
    match parseValue fuel l with
    | Except.error e => Except.error e
    | Except.ok (v, r) =>
      match skipWs r with
      | ',' :: r2 =>
        match parseArrItems fuel r2 with
        | Except.ok (vs, r3) => Except.ok (v :: vs, r3)
        | Except.error e => Except.error e
      | c :: r2 =>
        if c = ']' then Except.ok ([v], r2)
        else Except.error "Expecting comma delimiter"
      | [] => Except.error "Unterminated array"

/-- Parse the comma-separated entries of a non-empty object, up to and
including the closing bracket. -/
def parseObjItems : ℕ → List Char → Except String (List (String × Json) × List Char)
  | 0, _ => Except.error "payload too deeply nested"
  | fuel + 1, l =>
    match skipWs l with
    | [] => Except.error "Unterminated object"
    | c :: rest =>
      if c = '"' then
        match parseStringBody rest with
        | Except.error e => Except.error e
        | Except.ok (k, r) =>
          match skipWs r with
          | ':' :: r2 =>
            match parseValue fuel r2 with
            | Except.error e => Except.error e
            | Except.ok (v, r3) =>
              match skipWs r3 with
              | ',' :: r4 =>
                match parseObjItems fuel r4 with
                | Except.ok (es, r5) => Except.ok ((String.mk k, v) :: es, r5)
                | Except.error e => Except.error e
              | c2 :: r4 =>
                if c2 = rbrace then Except.ok ([(String.mk k, v)], r4)
                else Except.error "Expecting comma delimiter"
              | [] => Except.error "Unterminated object"
          | _ => Except.error "Expecting colon delimiter"
      else Except.error "Expecting property name"

end

/-- Model of `json.loads` on an ASCII text: parse one value and require
only whitespace to remain. -/
def jsonLoads (s : List Char) : Except String Json :=
  match parseValue (s.length + 1) s with
  | Except.ok (v, rest) =>
    if (skipWs rest).isEmpty then Except.ok v else Except.error "Extra data"
  | Except.error e => Except.error e

/-- Python dict subscription `message[k]` on a parsed JSON value.
`json.loads` keeps the last occurrence of a duplicated key, hence the
reversed lookup. -/
def pyDictGet (j : Json) (k : String) : Except String Json :=
  match j with
  | Json.obj entries =>
    match entries.reverse.lookup k with
    | some v => Except.ok v
    | none => Except.error ("KeyError " ++ k)
  | _ => Except.error "message is not a JSON object"

/-- The decode phase of `save_result` (the body of its `try` block):
base64-decode the payload, JSON-parse it, and read the
`utility_map` and `filename` entries.  The source only uses
`filename` as a string (a non-string value would fail later, outside
the wrapped region, a case no claim exercises), so a string is
required here. -/
def decodeStage2 (data : String) : Except String (Json × String) :=
  match pyB64Decode data with
  | Except.error e => Except.error e
  | Except.ok bytes =>
    match bytesToText bytes with
    | Except.error e => Except.error e
    | Except.ok chars =>
      match jsonLoads chars with
      | Except.error e => Except.error e
      | Except.ok msg =>
        match pyDictGet msg "utility_map" with
        | Except.error e => Except.error e
        | Except.ok um =>
          match pyDictGet msg "filename" with
          | Except.error e => Except.error e
          | Except.ok (Json.str fn) => Except.ok (um, fn)
          | Except.ok _ => Except.error "filename is not a string"

/-- Lowercase hexadecimal digit. -/
def hexDigitChar (n : ℕ) : Char :=
  if n < 10 then Char.ofNat (48 + n) else Char.ofNat (87 + n)

/-- The `\uXXXX` escape `json.dumps` emits for a character code. -/
def uEscape (n : ℕ) : List Char :=
  ['\\', 'u', hexDigitChar (n / 4096 % 16), hexDigitChar (n / 256 % 16),
   hexDigitChar (n / 16 % 16), hexDigitChar (n % 16)]

/-- Escaping of one character inside a JSON string, as `json.dumps`
does with its default `ensure_ascii=True` (characters above the basic
plane, which Python writes as a surrogate pair, are modelled as a
single escape; no payload of the pipeline contains them). -/
def escChar (c : Char) : List Char :=
  if c = '"' then ['\\', '"']
  else if c = '\\' then ['\\', '\\']
  else if c = '\n' then ['\\', 'n']
  else if c = '\t' then ['\\', 't']
  else if c = '\r' then ['\\', 'r']
  else if c.toNat = 8 then ['\\', 'b']
  else if c.toNat = 12 then ['\\', 'f']
  else if c.toNat < 32 ∨ 126 < c.toNat then uEscape c.toNat
  else [c]

/-- A JSON string literal: quoted and escaped. -/
def jsonQuote (s : String) : String :=
  String.mk ('"' :: s.data.foldr (fun c acc => escChar c ++ acc) ['"'])

/-- A run of spaces. -/
def spacesN (n : ℕ) : String := String.mk (List.replicate n ' ')

mutual

/-- Serialization of a JSON value in the format of
`json.dumps(value, indent=indentW)` at nesting depth `level`. -/
def jsonDumpVal (indentW level : ℕ) : Json → String
  | Json.null => "null"
  | Json.bool true => "true"
  | Json.bool false => "false"
  | Json.num n => toString n
  | Json.str s => jsonQuote s
  | Json.arr [] => "[]"
  | Json.arr (x :: xs) =>
    "[\n" ++ spacesN (indentW * (level + 1)) ++
      jsonDumpItems indentW (level + 1) x xs ++ "\n" ++ spacesN (indentW * level) ++ "]"
  | Json.obj [] => String.mk [lbrace, rbrace]
  | Json.obj ((k, v) :: es) =>
    String.mk [lbrace] ++ "\n" ++ spacesN (indentW * (level + 1)) ++
      jsonDumpEntries indentW (level + 1) k v es ++ "\n" ++
      spacesN (indentW * level) ++ String.mk [rbrace]
termination_by j => sizeOf j

/-- Serialization of the items of a non-empty array. -/
def jsonDumpItems (indentW level : ℕ) (x : Json) : List Json → String
  | [] => jsonDumpVal indentW level x
  | y :: ys =>
    jsonDumpVal indentW level x ++ ",\n" ++ spacesN (indentW * level) ++
      jsonDumpItems indentW level y ys
termination_by l => sizeOf x + sizeOf l

/-- Serialization of the entries of a non-empty object. -/
def jsonDumpEntries (indentW level : ℕ) (k : String) (v : Json) :
    List (String × Json) → String
  | [] => jsonQuote k ++ ": " ++ jsonDumpVal indentW level v
  | (k2, v2) :: fs =>
    jsonQuote k ++ ": " ++ jsonDumpVal indentW level v ++ ",\n" ++
      spacesN (indentW * level) ++ jsonDumpEntries indentW level k2 v2 fs
termination_by l => sizeOf v + sizeOf l

end

/-- `json.dumps(value, indent=4)`, as used by `save_result`. -/
def jsonDumps4 (j : Json) : String := jsonDumpVal 4 0 j

/-- The event type stage two expects. -/
def expectedTypeStageTwo : String := "google.cloud.pubsub.topic.v1.messagePublished"

/-- Python `s.split(".")[0]`: the part of `s` before its first `.`
(all of `s` when it has none). -/
def pySplitFirst (c : Char) (s : String) : String :=
  String.mk ((pySplit c s.data).headD [])

/-- Model of `save_result` (src/main.py lines 189-235): check the
event type, decode the payload (wrapping any decode failure in the
`ValueError` message together with the raw payload), then persist the
utility map, serialized with 4-space indentation, in the result
bucket under the part of the original filename before its first
period plus `".json"`. -/
def save_result (received_type result_bucket : String) (data : String) :
    List Effect × Except String Unit :=
  if received_type ≠ expectedTypeStageTwo then
    ([], Except.error ("Expected " ++ expectedTypeStageTwo ++ " but received " ++
      received_type))
  else
    match decodeStage2 data with
    | Except.error e =>
      ([], Except.error ("Missing or malformed PubSub message " ++ data ++ ": " ++
        e ++ "."))
    | Except.ok (um, fn) =>
      ([Effect.writeResult result_bucket (pySplitFirst '.' fn ++ ".json")
          (jsonDumps4 um)],
       Except.ok ())

/-- The stored-object name of an effect, used to observe what
`save_result` persisted. -/
def effectName : Effect → String
  | Effect.writeImage _ n _ => n
  | Effect.ocrCall _ n => n
  | Effect.publish _ => ""
  | Effect.writeResult _ n _ => n

/-- Claim C8: when the stage-two payload fails to decode (invalid
base64 or invalid JSON), `save_result` raises the `ValueError` that
wraps the raw payload and the underlying decode error, and performs
no storage write at all. -/
theorem C8_malformed_payload (result_bucket data e : String)
    (h : decodeStage2 data = Except.error e) :
    save_result expectedTypeStageTwo result_bucket data =
      ([], Except.error ("Missing or malformed PubSub message " ++ data ++ ": " ++
        e ++ ".")) := by
  simp only [save_result]
  rw [if_neg (fun hc => hc rfl), h]

/-- Claim C8 witness: the payload `"A"` fails base64 decoding (incorrect
padding) and the payload `"bm90anNvbg=="` (base64 of `notjson`) fails
JSON parsing; in both cases `save_result` raises the wrapping error
and writes nothing. -/
theorem C8_malformed_payload_witness :
    decodeStage2 "A" = Except.error "Incorrect padding" ∧
    save_result expectedTypeStageTwo "rb" "A" =
      ([], Except.error ("Missing or malformed PubSub message " ++ "A" ++ ": " ++
        "Incorrect padding" ++ ".")) ∧
    decodeStage2 "bm90anNvbg==" = Except.error "Expecting value" ∧
    save_result expectedTypeStageTwo "rb" "bm90anNvbg==" =
      ([], Except.error ("Missing or malformed PubSub message " ++ "bm90anNvbg==" ++
        ": " ++ "Expecting value" ++ ".")) :=
  ⟨rfl, C8_malformed_payload "rb" "A" "Incorrect padding" rfl,
   rfl, C8_malformed_payload "rb" "bm90anNvbg==" "Expecting value" rfl⟩

/-- A stage-two payload whose decoded filename contains two periods:
the base64 encoding of
`{"utility_map": {}, "filename": "a.b.jpg"}`. -/
def cexPayload : String :=
  "eyJ1dGlsaXR5X21hcCI6IHt9LCAiZmlsZW5hbWUiOiAiYS5iLmpwZyJ9"

/-- Claim C2 (counterexample): for the decoded filename `"a.b.jpg"`
(whose extension is `".jpg"`, so the filename without its extension
is `"a.b"`), `save_result` persists under `"a.json"` — the part
before the FIRST period — not under `"a.b.json"` as the claim's
extension-replacement rule requires for every input filename. -/
theorem C2_save_result_cex :
    (save_result expectedTypeStageTwo "rb" cexPayload).1.map effectName = ["a.json"] ∧
    "a.json" ≠ "a.b" ++ ".json" := by
  constructor
  · rfl
  · decide

/-- Claim C2 (amended): for every successfully decoded stage-two
message, `save_result` persists exactly one document whose content is
the message's `utility_map` serialized verbatim with 4-space
indentation (including any nested `original_translation` entry),
stored in the result bucket under the name formed from the part of
the original filename before its FIRST period plus `".json"` (which
equals extension replacement only for filenames with at most one
period). -/
theorem C2_save_result_persists (result_bucket data : String) (um : Json) (fn : String)
    (h : decodeStage2 data = Except.ok (um, fn)) :
    save_result expectedTypeStageTwo result_bucket data =
      ([Effect.writeResult result_bucket (pySplitFirst '.' fn ++ ".json")
          (jsonDumps4 um)],
       Except.ok ()) := by
  simp only [save_result]
  rw [if_neg (fun hc => hc rfl), h]

/-- A well-formed stage-two payload: the base64 encoding of
`{"utility_map": {"a": "b"}, "filename": "photo.jpg"}`. -/
def okPayload : String :=
  "eyJ1dGlsaXR5X21hcCI6IHsiYSI6ICJiIn0sICJmaWxlbmFtZSI6ICJwaG90by5qcGcifQ=="

/-- Claim C2 witness: the amended claim applied to the concrete
payload `okPayload`, which decodes to the utility map with the single
entry `a : b` and the filename `"photo.jpg"`. -/
theorem C2_save_result_persists_witness :
    save_result expectedTypeStageTwo "rb" okPayload =
      ([Effect.writeResult "rb" (pySplitFirst '.' "photo.jpg" ++ ".json")
          (jsonDumps4 (Json.obj [("a", Json.str "b")]))],
       Except.ok ()) :=
  C2_save_result_persists "rb" okPayload (Json.obj [("a", Json.str "b")]) "photo.jpg" rfl
